import Mathlib

/-
Verification development for the quota segment of CCometixLine
(src/core/segments/quota.rs).

The embedding models, faithfully to the Rust source:
  - the credential fingerprint `hash_api_key` (Rust's `DefaultHasher`,
    i.e. SipHash-1-3 with the fixed keys (0, 0), applied to the UTF-8
    bytes of the string followed by the 0xff terminator byte that
    `Hash for str` appends);
  - the endpoint cache record and its validity test `is_cache_valid`
    (`SystemTime` is modelled as a natural number of seconds since the
    epoch; `duration_since` failing on a future timestamp is modelled by
    the `u64Max` sentinel, exactly as `unwrap_or(Duration::from_secs(u64::MAX))`);
  - the two-phase endpoint detection `detect_endpoint` (try-cached then
    probe-all).  Network outcomes of `try_endpoint` are a parameter
    `net : String → Option PackyCodeApiResponse` giving, per URL, the
    final outcome of the single bounded HTTP attempt (status-200 and
    JSON-parse failures both collapse to `none`, as in the source, where
    `try_endpoint` returns `Option<PackyCodeApiResponse>`).  The
    `attempted` field of `DetectResult` records the URLs contacted, in
    order, so that "no other endpoint is contacted" is statable;
  - numeric fields of fixed width use explicit modular arithmetic:
    the hash is reduced mod 2^64 at every step, and the `u32`
    `success_count` increment wraps mod 2^32 (release overflow
    semantics of `cache.success_count += 1`);
  - the credential resolver `load_api_key` / `load_from_settings` over
    an explicit environment record (env vars, home directory presence,
    settings.json parse outcome, api_key file content);
  - the `collect` adapter, with the compile-time `quota` feature as a
    boolean parameter and the metadata `HashMap` as an association list
    of the inserted pairs (all keys distinct).
-/

/-! ## 64-bit modular arithmetic helpers and SipHash-1-3 -/

def wordMod : Nat := 2 ^ 64

/-- Left rotation of a 64-bit word, with an explicit final reduction mod 2^64. -/
def rotl64 (x b : Nat) : Nat := ((x * 2 ^ b) % wordMod ||| x / 2 ^ (64 - b)) % wordMod

/-- Wrapping 64-bit addition. -/
def addw (a b : Nat) : Nat := (a + b) % wordMod

/-- Bitwise xor reduced mod 2^64 (identity on in-range operands). -/
def xorw (a b : Nat) : Nat := (a ^^^ b) % wordMod

structure SipState where
  v0 : Nat
  v1 : Nat
  v2 : Nat
  v3 : Nat
deriving Repr, DecidableEq

/-- One SIPROUND of the SipHash permutation. -/
def sipRound (s : SipState) : SipState :=
  let v0 := addw s.v0 s.v1
  let v1 := rotl64 s.v1 13
  let v1 := xorw v1 v0
  let v0 := rotl64 v0 32
  let v2 := addw s.v2 s.v3
  let v3 := rotl64 s.v3 16
  let v3 := xorw v3 v2
  let v0 := addw v0 v3
  let v3 := rotl64 v3 21
  let v3 := xorw v3 v0
  let v2 := addw v2 v1
  let v1 := rotl64 v1 17
  let v1 := xorw v1 v2
  let v2 := rotl64 v2 32
  ⟨v0, v1, v2, v3⟩

/-- Compression of one message word (SipHash-1-3 runs a single c-round). -/
def sipCompress (s : SipState) (m : Nat) : SipState :=
  let s1 : SipState := { s with v3 := xorw s.v3 m }
  let s2 := sipRound s1
  { s2 with v0 := xorw s2.v0 m }

/-- Little-endian interpretation of a byte list. -/
def toLE64 : List Nat → Nat
  | [] => 0
  | b :: bs => b + 256 * toLE64 bs

/-- Consume full 8-byte blocks of the stream, returning the tail of fewer
than 8 bytes. -/
def sipBlocks : SipState → List Nat → SipState × List Nat
  | s, b0 :: b1 :: b2 :: b3 :: b4 :: b5 :: b6 :: b7 :: rest =>
    sipBlocks (sipCompress s (toLE64 [b0, b1, b2, b3, b4, b5, b6, b7])) rest
  | s, rest => (s, rest)

/-- SipHash-1-3 of a byte stream with 128-bit key (k0, k1), as implemented
by Rust's `SipHasher13`: initial state from the "somepseudorandomlygenerated
bytes" constants, one compression round per 8-byte little-endian word, a
final word carrying the tail bytes and the stream length mod 256 in the top
byte, then the 0xff finalization xor and three d-rounds. -/
def sipHash13 (k0 k1 : Nat) (stream : List Nat) : Nat :=
  let b := stream.length
  let init : SipState :=
    ⟨xorw k0 0x736f6d6570736575, xorw k1 0x646f72616e646f6d,
     xorw k0 0x6c7967656e657261, xorw k1 0x7465646279746573⟩
  let p := sipBlocks init stream
  let finalWord := (toLE64 p.2 + (b % 256) * 2 ^ 56) % wordMod
  let s1 := sipCompress p.1 finalWord
  let s2 : SipState := { s1 with v2 := xorw s1.v2 0xff }
  let s3 := sipRound (sipRound (sipRound s2))
  (s3.v0 ^^^ s3.v1 ^^^ s3.v2 ^^^ s3.v3) % wordMod

/-- UTF-8 encoding of one Unicode scalar value. -/
def utf8Bytes (c : Nat) : List Nat :=
  if c < 0x80 then [c]
  else if c < 0x800 then [0xC0 ||| c / 2 ^ 6, 0x80 ||| (c &&& 0x3F)]
  else if c < 0x10000 then
    [0xE0 ||| c / 2 ^ 12, 0x80 ||| (c / 2 ^ 6 &&& 0x3F), 0x80 ||| (c &&& 0x3F)]
  else
    [0xF0 ||| c / 2 ^ 18, 0x80 ||| (c / 2 ^ 12 &&& 0x3F),
     0x80 ||| (c / 2 ^ 6 &&& 0x3F), 0x80 ||| (c &&& 0x3F)]

/-- UTF-8 byte stream of a string (what `Hasher::write(s.as_bytes())` sees). -/
def strBytes (s : String) : List Nat :=
  s.data.foldr (fun ch acc => utf8Bytes ch.toNat ++ acc) []

/-- SmartEndpointDetector::hash_api_key: `DefaultHasher::new()` is
SipHash-1-3 with the fixed keys (0, 0) — no per-process randomness — and
`str::hash` writes the UTF-8 bytes followed by a 0xff length-prefix-free
terminator byte. -/
def hash_api_key (apiKey : String) : Nat :=
  sipHash13 0 0 (strBytes apiKey ++ [0xff])

/-! ## Data model of the quota segment -/

structure PackyCodeApiResponse where
  daily_spent_usd : String
  opus_enabled : Bool
deriving Repr, DecidableEq

structure EndpointConfig where
  url : String
  name : String
deriving Repr, DecidableEq

structure EndpointCache where
  api_key_hash : Nat
  successful_endpoint : String
  last_success_time : Nat
  success_count : Nat
deriving Repr, DecidableEq

structure SmartEndpointDetector where
  endpoints : List EndpointConfig
  cache : Option EndpointCache
deriving Repr, DecidableEq

def u64Max : Nat := 2 ^ 64 - 1

/-- The fixed endpoint list built in SmartEndpointDetector::new. -/
def defaultEndpoints : List EndpointConfig :=
  [⟨"https://www.packycode.com/api/backend/users/info", "main"⟩,
   ⟨"https://share.packycode.com/api/backend/users/info", "share"⟩]

/-- SmartEndpointDetector::new: fixed endpoints plus the cache loaded from
the cache file (`load_cache`; any read or parse failure yields `none`, so
the parameter is the already-decoded optional record). -/
def SmartEndpointDetector.new (loadedCache : Option EndpointCache) : SmartEndpointDetector :=
  ⟨defaultEndpoints, loadedCache⟩

/-- SmartEndpointDetector::is_cache_valid: the fingerprint of the current
key must equal the stored hash and the cache age must be strictly under
86400 seconds.  `duration_since` on a future timestamp is an error and
`unwrap_or` turns it into `u64::MAX` seconds, which fails the age test. -/
def is_cache_valid (d : SmartEndpointDetector) (now : Nat) (apiKey : String) : Bool :=
  match d.cache with
  | some cache =>
    let currentHash := hash_api_key apiKey
    let cacheAge := if cache.last_success_time ≤ now then now - cache.last_success_time else u64Max
    currentHash == cache.api_key_hash && decide (cacheAge < 86400)
  | none => false

/-- The record written by SmartEndpointDetector::update_cache: a wholesale
replacement with the current key's fingerprint, the succeeding endpoint, a
fresh timestamp and `success_count = 1`. -/
def update_cache_record (apiKey : String) (successfulEndpoint : String) (now : Nat) : EndpointCache :=
  ⟨hash_api_key apiKey, successfulEndpoint, now, 1⟩

/-- SmartEndpointDetector::update_cache_stats: refresh the timestamp and
increment `success_count` in place (u32 wrapping increment); a missing
record is left untouched. -/
def update_cache_stats (c : Option EndpointCache) (now : Nat) : Option EndpointCache :=
  match c with
  | some cache =>
    some { cache with last_success_time := now,
                      success_count := (cache.success_count + 1) % 2 ^ 32 }
  | none => none

/-- Outcome of one detection call: the returned value, the detector's cache
field afterwards, and the list of endpoint URLs contacted, in order. -/
structure DetectResult where
  result : Option (String × PackyCodeApiResponse)
  cache : Option EndpointCache
  attempted : List String
deriving Repr

/-- The probe-all loop of SmartEndpointDetector::detect_endpoint: try each
endpoint of the list in order; the first success replaces the cache record
via `update_cache` and terminates the loop; if the list is exhausted the
cache is left as it was and the result is `none`. -/
def probeAll (net : String → Option PackyCodeApiResponse) (now : Nat) (apiKey : String) :
    List EndpointConfig → Option EndpointCache → DetectResult
  | [], c => ⟨none, c, []⟩
  | e :: rest, c =>
    match net e.url with
    | some r => ⟨some (e.url, r), some (update_cache_record apiKey e.url now), [e.url]⟩
    | none =>
      let t := probeAll net now apiKey rest c
      ⟨t.result, t.cache, e.url :: t.attempted⟩

/-- SmartEndpointDetector::detect_endpoint.  If the cache is valid, look up
the cached URL in the endpoint list and attempt only it; on success update
the stats and return; otherwise (stale, absent, unknown URL, or failed
attempt) fall through to the probe-all loop over the full list. -/
def detect_endpoint (d : SmartEndpointDetector) (net : String → Option PackyCodeApiResponse)
    (now : Nat) (apiKey : String) : DetectResult :=
  if is_cache_valid d now apiKey then
    match d.cache with
    | some cache =>
      match d.endpoints.find? (fun e => e.url == cache.successful_endpoint) with
      | some endpoint =>
        match net endpoint.url with
        | some response =>
          { result := some (cache.successful_endpoint, response)
            cache := update_cache_stats d.cache now
            attempted := [endpoint.url] }
        | none =>
          let t := probeAll net now apiKey d.endpoints d.cache
          ⟨t.result, t.cache, endpoint.url :: t.attempted⟩
      | none => probeAll net now apiKey d.endpoints d.cache
    | none => probeAll net now apiKey d.endpoints d.cache
  else
    probeAll net now apiKey d.endpoints d.cache

/-! ## Credential resolver -/

/-- Minimal JSON value model, standing for an already-parsed
`serde_json::Value` of the settings file (object keys distinct,
duplicates having been resolved by the parser). -/
inductive Json where
  | null : Json
  | bool (b : Bool) : Json
  | num (q : Rat) : Json
  | str (s : String) : Json
  | arr (elems : List Json) : Json
  | obj (fields : List (String × Json)) : Json

/-- Value::get(key): field lookup on an object, `none` on any other shape. -/
def Json.get : Json → String → Option Json
  | .obj fields, key => (fields.find? (fun f => f.1 == key)).map (fun f => f.2)
  | _, _ => none

/-- Value::as_str. -/
def Json.asStr : Json → Option String
  | .str s => some s
  | _ => none

/-- The ambient world a `collect` call observes: the compile-time `quota`
feature, the three environment variables (a set-but-empty variable is
`some ""`, an unset one is `none`, matching `env::var`), whether
`dirs::home_dir()` yields a home directory, the settings.json read/parse
outcome (`none`: file unreadable; `some none`: malformed JSON;
`some (some j)`: parsed), the api_key file content, the decoded endpoint
cache file, the per-URL network outcome, and the current time. -/
structure CollectEnv where
  quotaFeature : Bool
  envPackycodeApiKey : Option String
  envAnthropicApiKey : Option String
  envAnthropicAuthToken : Option String
  hasHome : Bool
  settingsJson : Option (Option Json)
  apiKeyFile : Option String
  cacheFile : Option EndpointCache
  net : String → Option PackyCodeApiResponse
  now : Nat

/-- QuotaSegment::load_from_settings: read `~/.claude/settings.json`,
parse it, and return `env.ANTHROPIC_AUTH_TOKEN` if it is a string,
else `env.ANTHROPIC_API_KEY` if it is a string; every failure along the
way yields `none`. -/
def load_from_settings (env : CollectEnv) : Option String :=
  if env.hasHome then
    match env.settingsJson with
    | some (some settings) =>
      match settings.get "env" with
      | some envObj =>
        match (envObj.get "ANTHROPIC_AUTH_TOKEN").bind Json.asStr with
        | some tokenStr => some tokenStr
        | none => (envObj.get "ANTHROPIC_API_KEY").bind Json.asStr
      | none => none
    | _ => none
  else none

/-- QuotaSegment::load_api_key: the five-source priority chain.  Each
`env::var` that is present is returned immediately — including a
set-but-empty variable, which `env::var` reports as `Ok("")`.  The flat
api_key file content is trimmed of surrounding whitespace. -/
def load_api_key (env : CollectEnv) : Option String :=
  match env.envPackycodeApiKey with
  | some key => some key
  | none =>
  match env.envAnthropicApiKey with
  | some key => some key
  | none =>
  match env.envAnthropicAuthToken with
  | some key => some key
  | none =>
  match load_from_settings env with
  | some key => some key
  | none =>
  if env.hasHome then
    match env.apiKeyFile with
    | some content => some content.trim
    | none => none
  else none

/-! ## Spend formatting (f64 parse and 2-decimal rendering) -/

/-- Result of `str::parse::<f64>()`, keeping the sign separate so that a
negative zero keeps its sign for rendering, as IEEE-754 does.  The
magnitude of a finite value is kept as an exact rational; Rust rounds it
to the nearest binary64, which can shift the rendered digits of values
that are not exactly representable, but never the success/finite/inf/nan
classification or the rendered shape, which is all the theorems below
use.  Decimal magnitudes at or beyond the binary64 rounding boundary
2^1024 − 2^970 overflow to infinity, as in Rust. -/
inductive FloatVal where
  | finite (neg : Bool) (mag : Rat) : FloatVal
  | inf (neg : Bool) : FloatVal
  | nan : FloatVal
deriving Repr, DecidableEq

/-- Optional leading sign; `true` means negative. -/
def parseSign : List Char → Bool × List Char
  | '-' :: rest => (true, rest)
  | '+' :: rest => (false, rest)
  | cs => (false, cs)

def digitsToNat (ds : List Char) : Nat :=
  ds.foldl (fun acc c => acc * 10 + (c.toNat - 48)) 0

/-- Smallest decimal magnitude that `f64` parsing rounds up to infinity.
Built with the core rational constructor so it reduces in the kernel. -/
def f64OverflowBound : Rat := mkRat (Int.ofNat (2 ^ 1024 - 2 ^ 970)) 1

/-- Assemble the parsed mantissa, fraction length and exponent into a
value, overflowing to infinity past the binary64 bound. -/
def mkFloat (neg : Bool) (mantissa : Nat) (fracLen : Nat) (expVal : Int) : FloatVal :=
  let e : Int := expVal - (fracLen : Int)
  let mag : Rat :=
    if 0 ≤ e then mkRat (Int.ofNat (mantissa * 10 ^ e.toNat)) 1
    else mkRat (Int.ofNat mantissa) (10 ^ (-e).toNat)
  if Rat.blt mag f64OverflowBound then .finite neg mag else .inf neg

/-- Optional exponent part `('e'|'E') ('+'|'-')? digit+` closing the
input; anything else trailing makes the whole parse fail. -/
def parseExponent (neg : Bool) (mantissa : Nat) (fracLen : Nat) : List Char → Option FloatVal
  | [] => some (mkFloat neg mantissa fracLen 0)
  | e :: rest =>
    if e == 'e' || e == 'E' then
      let sr := parseSign rest
      let eDigits := sr.2.takeWhile Char.isDigit
      let rest3 := sr.2.dropWhile Char.isDigit
      if eDigits.isEmpty || !rest3.isEmpty then none
      else
        let ev : Int := if sr.1 then -(digitsToNat eDigits : Int) else (digitsToNat eDigits : Int)
        some (mkFloat neg mantissa fracLen ev)
    else none

/-- Decimal number body: `digit+ ('.' digit*)? | '.' digit+`, then an
optional exponent. -/
def parseNumber (neg : Bool) (cs : List Char) : Option FloatVal :=
  let intDigits := cs.takeWhile Char.isDigit
  let rest1 := cs.dropWhile Char.isDigit
  match rest1 with
  | '.' :: rest2 =>
    let fracDigits := rest2.takeWhile Char.isDigit
    let rest3 := rest2.dropWhile Char.isDigit
    if intDigits.isEmpty && fracDigits.isEmpty then none
    else parseExponent neg (digitsToNat (intDigits ++ fracDigits)) fracDigits.length rest3
  | _ =>
    if intDigits.isEmpty then none
    else parseExponent neg (digitsToNat intDigits) 0 rest1

/-- The grammar of `f64::from_str`: optional sign, then a
case-insensitive `inf`, `infinity` or `nan` keyword, or a decimal
number with optional exponent.  No surrounding whitespace is accepted. -/
def rustParseFloat (s : String) : Option FloatVal :=
  let sr := parseSign s.data
  let low := sr.2.map Char.toLower
  if low == ['i', 'n', 'f'] || low == ['i', 'n', 'f', 'i', 'n', 'i', 't', 'y'] then
    some (.inf sr.1)
  else if low == ['n', 'a', 'n'] then some .nan
  else parseNumber sr.1 sr.2

/-- Round a nonnegative rational to the nearest natural, ties to even
(the rounding `format!` uses when truncating to a fixed precision). -/
def roundHalfEvenNat (x : Rat) : Nat :=
  let numAbs := x.num.toNat
  let n := numAbs / x.den
  let r := numAbs % x.den
  if x.den < 2 * r then n + 1
  else if 2 * r < x.den then n
  else if n % 2 = 0 then n else n + 1

/-- Multiplication of a rational by 100 through the smart constructor,
kept kernel-reducible. -/
def ratMul100 (q : Rat) : Rat := mkRat (q.num * 100) q.den

/-- The ".dd" tail of a two-decimal rendering. -/
def twoFracString (r : Nat) : String :=
  ⟨['.', Nat.digitChar (r / 10), Nat.digitChar (r % 10)]⟩

/-- Rendering of a finite value by `format!("\x7b:.2\x7d", v)`: sign,
integer part, and exactly two fractional digits. -/
def fmtFinite (neg : Bool) (mag : Rat) : String :=
  (if neg then "-" else "") ++ toString (roundHalfEvenNat (ratMul100 mag) / 100)
    ++ twoFracString (roundHalfEvenNat (ratMul100 mag) % 100)

/-- Rendering of any parsed value: `format!` ignores the precision for
the non-finite values and prints `inf`, `-inf` or `NaN`. -/
def fmtFloat : FloatVal → String
  | .finite neg mag => fmtFinite neg mag
  | .inf neg => (if neg then "-" else "") ++ "inf"
  | .nan => "NaN"

/-- QuotaSegment::format_daily_spent: parse the spend string as an f64
and render it with two decimal places behind a dollar sign; if the parse
fails, render the raw string behind the dollar sign. -/
def format_daily_spent (spentStr : String) : String :=
  match rustParseFloat spentStr with
  | some v => "$" ++ fmtFloat v
  | none => "$" ++ spentStr

/-- Test that a rendered string ends in a dot followed by exactly two
digits — the "exactly two decimal places" shape. -/
def hasTwoDecimals (s : String) : Bool :=
  match s.data.reverse with
  | b :: a :: '.' :: _ => a.isDigit && b.isDigit
  | _ => false

/-- QuotaSegment::format_opus_status. -/
def format_opus_status (enabled : Bool) : String :=
  if enabled then "Opus✓" else "Opus✗"

/-! ## The collect adapter -/

/-- Output contract of a segment; the metadata `HashMap` is modelled as
the association list of inserted pairs (the keys inserted by the quota
segment are pairwise distinct, so insertion order is immaterial). -/
structure SegmentData where
  primary : String
  secondary : String
  metadata : List (String × String)
deriving Repr, DecidableEq

/-- QuotaSegment::collect.  With the `quota` feature compiled out the
segment always yields `none`; otherwise a missing credential yields
`none`, a successful detection yields the formatted spend and Opus
status with full metadata, and a total detection failure yields the
degraded Offline segment. -/
def collect (env : CollectEnv) : Option SegmentData :=
  if env.quotaFeature = false then none
  else
    match load_api_key env with
    | none => none
    | some apiKey =>
      let d := SmartEndpointDetector.new env.cacheFile
      match (detect_endpoint d env.net env.now apiKey).result with
      | some (endpointUrl, response) =>
        some ⟨format_daily_spent response.daily_spent_usd,
              format_opus_status response.opus_enabled,
              [("raw_spent", response.daily_spent_usd),
               ("opus_enabled", toString response.opus_enabled),
               ("endpoint_used", endpointUrl)]⟩
      | none =>
        some ⟨"Offline", "", [("status", "offline")]⟩

/-! ## Specification-side definitions (used by refinement-style claims) -/

/-- Spec wording of the probe phase result: attempt each endpoint of the
list strictly in order until one succeeds; the first success wins; an
exhausted list yields the sentinel `none`. -/
def probeSpecResult (net : String → Option PackyCodeApiResponse) :
    List EndpointConfig → Option (String × PackyCodeApiResponse)
  | [] => none
  | e :: rest =>
    match net e.url with
    | some r => some (e.url, r)
    | none => probeSpecResult net rest

/-- Spec wording of the probe phase trace: the URLs contacted when the
endpoints are attempted sequentially until the first success or the end
of the list. -/
def probeSpecTrace (net : String → Option PackyCodeApiResponse) :
    List EndpointConfig → List String
  | [] => []
  | e :: rest =>
    match net e.url with
    | some _ => [e.url]
    | none => e.url :: probeSpecTrace net rest

/-- The try-cached phase runs and succeeds: the cache is valid, its URL
is an endpoint of the list, and the attempt against it succeeds. -/
def cachedAttemptSucceeds (d : SmartEndpointDetector)
    (net : String → Option PackyCodeApiResponse) (now : Nat) (apiKey : String) : Bool :=
  is_cache_valid d now apiKey &&
    (match d.cache with
     | some cache =>
       match d.endpoints.find? (fun e => e.url == cache.successful_endpoint) with
       | some endpoint => (net endpoint.url).isSome
       | none => false
     | none => false)

/-- Spec wording of the credential source chain, in priority order: the
three environment variables, the settings.json lookup, and the trimmed
api_key file. -/
def credentialSources (env : CollectEnv) : List (Option String) :=
  [env.envPackycodeApiKey, env.envAnthropicApiKey, env.envAnthropicAuthToken,
   load_from_settings env,
   if env.hasHome then env.apiKeyFile.map String.trim else none]

/-- Spec wording of "stopping at the first source that is found". -/
def firstSome : List (Option String) → Option String
  | [] => none
  | some s :: _ => some s
  | none :: rest => firstSome rest

/-! ## Witness fixtures: concrete detectors, caches and environments -/

def wURL : String := "https://www.packycode.com/api/backend/users/info"

def wResp : PackyCodeApiResponse := ⟨"12.5", true⟩

def wCache : EndpointCache := ⟨hash_api_key "k", wURL, 100, 3⟩

def wDetector : SmartEndpointDetector := SmartEndpointDetector.new (some wCache)

def wCacheAlien : EndpointCache := ⟨hash_api_key "k", "https://other.example/api", 100, 3⟩

def wDetectorAlien : SmartEndpointDetector := SmartEndpointDetector.new (some wCacheAlien)

def wNetMain : String → Option PackyCodeApiResponse :=
  fun u => if u == wURL then some wResp else none

def wNetNone : String → Option PackyCodeApiResponse := fun _ => none

def wEnvCred : CollectEnv :=
  ⟨true, some "k", none, none, false, none, none, none, wNetNone, 0⟩

def wEnvNoCred : CollectEnv :=
  ⟨true, none, none, none, false, none, none, none, wNetNone, 0⟩

def wEnvEmptyVar : CollectEnv :=
  ⟨true, some "", none, none, false, none, none, none, wNetNone, 0⟩

/-! ## Helper lemmas about the probe-all phase -/

theorem probeAll_result_eq (net : String → Option PackyCodeApiResponse) (now : Nat)
    (apiKey : String) (l : List EndpointConfig) (c : Option EndpointCache) :
    (probeAll net now apiKey l c).result = probeSpecResult net l := by
  induction l with
  | nil => rfl
  | cons e rest ih =>
    simp only [probeAll, probeSpecResult]
    cases h : net e.url <;> simp [h, ih]

theorem probeAll_attempted_eq (net : String → Option PackyCodeApiResponse) (now : Nat)
    (apiKey : String) (l : List EndpointConfig) (c : Option EndpointCache) :
    (probeAll net now apiKey l c).attempted = probeSpecTrace net l := by
  induction l with
  | nil => rfl
  | cons e rest ih =>
    simp only [probeAll, probeSpecTrace]
    cases h : net e.url <;> simp [h, ih]

theorem probeSpecResult_eq_none_iff (net : String → Option PackyCodeApiResponse)
    (l : List EndpointConfig) :
    probeSpecResult net l = none ↔ ∀ e ∈ l, net e.url = none := by
  induction l with
  | nil => simp [probeSpecResult]
  | cons e rest ih =>
    simp only [probeSpecResult]
    cases h : net e.url <;> simp [h, ih]

theorem probeSpecResult_net (net : String → Option PackyCodeApiResponse)
    (l : List EndpointConfig) (url : String) (r : PackyCodeApiResponse)
    (h : probeSpecResult net l = some (url, r)) : net url = some r := by
  induction l with
  | nil => simp [probeSpecResult] at h
  | cons e rest ih =>
    cases he : net e.url with
    | some r0 =>
      simp only [probeSpecResult, he, Option.some.injEq, Prod.mk.injEq] at h
      obtain ⟨h1, h2⟩ := h
      subst h1; subst h2; exact he
    | none =>
      simp only [probeSpecResult, he] at h
      exact ih h

theorem probeAll_cache_of_success (net : String → Option PackyCodeApiResponse) (now : Nat)
    (apiKey : String) (l : List EndpointConfig) (c : Option EndpointCache)
    (url : String) (r : PackyCodeApiResponse)
    (h : (probeAll net now apiKey l c).result = some (url, r)) :
    (probeAll net now apiKey l c).cache = some (update_cache_record apiKey url now) := by
  induction l with
  | nil => simp [probeAll] at h
  | cons e rest ih =>
    cases he : net e.url with
    | some r0 =>
      simp only [probeAll, he, Option.some.injEq, Prod.mk.injEq] at h ⊢
      simp [← h.1]
    | none =>
      simp only [probeAll, he] at h ⊢
      exact ih h

theorem probeAll_cache_of_none (net : String → Option PackyCodeApiResponse) (now : Nat)
    (apiKey : String) (l : List EndpointConfig) (c : Option EndpointCache)
    (h : (probeAll net now apiKey l c).result = none) :
    (probeAll net now apiKey l c).cache = c := by
  induction l with
  | nil => rfl
  | cons e rest ih =>
    cases he : net e.url with
    | some r0 => simp only [probeAll, he] at h; simp at h
    | none =>
      simp only [probeAll, he] at h ⊢
      exact ih h

theorem probeSpecTrace_mem (net : String → Option PackyCodeApiResponse)
    (l : List EndpointConfig) (u : String) (h : u ∈ probeSpecTrace net l) :
    ∃ e ∈ l, e.url = u := by
  induction l with
  | nil => simp [probeSpecTrace] at h
  | cons e rest ih =>
    simp only [probeSpecTrace] at h
    cases he : net e.url with
    | some r0 =>
      rw [he] at h; simp at h
      exact ⟨e, List.mem_cons_self e rest, h.symm⟩
    | none =>
      rw [he] at h
      rcases List.mem_cons.mp h with h1 | h2
      · exact ⟨e, List.mem_cons_self e rest, h1.symm⟩
      · obtain ⟨e', he', hu⟩ := ih h2
        exact ⟨e', List.mem_cons_of_mem e he', hu⟩

/-- When the try-cached phase does not run to a success, `detect_endpoint`
behaves as the probe-all loop, with at most the one failed cached attempt
prepended to the contact trace. -/
theorem detect_endpoint_fallback_eq (d : SmartEndpointDetector)
    (net : String → Option PackyCodeApiResponse) (now : Nat) (apiKey : String)
    (h : cachedAttemptSucceeds d net now apiKey = false) :
    detect_endpoint d net now apiKey = probeAll net now apiKey d.endpoints d.cache
    ∨ ∃ u, detect_endpoint d net now apiKey =
        ⟨(probeAll net now apiKey d.endpoints d.cache).result,
         (probeAll net now apiKey d.endpoints d.cache).cache,
         u :: (probeAll net now apiKey d.endpoints d.cache).attempted⟩ := by
  cases hv : is_cache_valid d now apiKey with
  | false => left; simp [detect_endpoint, hv]
  | true =>
    cases hc : d.cache with
    | none => left; simp [detect_endpoint, hv, hc]
    | some cache =>
      cases hf : d.endpoints.find? (fun e => e.url == cache.successful_endpoint) with
      | none => left; simp [detect_endpoint, hv, hc, hf]
      | some ep =>
        cases hn : net ep.url with
        | some r0 =>
          exfalso
          simp [cachedAttemptSucceeds, hv, hc, hf, hn] at h
        | none =>
          right
          exact ⟨ep.url, by simp [detect_endpoint, hv, hc, hf, hn]⟩

theorem detect_endpoint_fallback (d : SmartEndpointDetector)
    (net : String → Option PackyCodeApiResponse) (now : Nat) (apiKey : String)
    (h : cachedAttemptSucceeds d net now apiKey = false) :
    (detect_endpoint d net now apiKey).result = (probeAll net now apiKey d.endpoints d.cache).result
    ∧ (detect_endpoint d net now apiKey).cache = (probeAll net now apiKey d.endpoints d.cache).cache
    ∧ ∃ pre, pre.length ≤ 1 ∧
        (detect_endpoint d net now apiKey).attempted
          = pre ++ (probeAll net now apiKey d.endpoints d.cache).attempted := by
  rcases detect_endpoint_fallback_eq d net now apiKey h with heq | ⟨u, heq⟩
  · rw [heq]; exact ⟨rfl, rfl, [], by simp, by simp⟩
  · rw [heq]; exact ⟨rfl, rfl, [u], by simp, rfl⟩

/-- All endpoints failing rules out a successful cached attempt, since the
cached attempt is only made against an endpoint of the configured list. -/
theorem cachedAttemptSucceeds_of_all_fail (d : SmartEndpointDetector)
    (net : String → Option PackyCodeApiResponse) (now : Nat) (apiKey : String)
    (hall : ∀ e ∈ d.endpoints, net e.url = none) :
    cachedAttemptSucceeds d net now apiKey = false := by
  cases hv : is_cache_valid d now apiKey with
  | false => simp [cachedAttemptSucceeds, hv]
  | true =>
    cases hc : d.cache with
    | none => simp [cachedAttemptSucceeds, hv, hc]
    | some cache =>
      cases hf : d.endpoints.find? (fun e => e.url == cache.successful_endpoint) with
      | none => simp [cachedAttemptSucceeds, hv, hc, hf]
      | some ep =>
        have hmem := List.mem_of_find?_eq_some hf
        simp [cachedAttemptSucceeds, hv, hc, hf, hall ep hmem]

/-! ## Claim theorems -/

/-- C1: for every combination of feature flag, credential availability,
settings and key files, cache state, endpoint outcomes and clock,
`QuotaSegment::collect` returns a value — either `none` or some
`SegmentData` (possibly the degraded Offline one); it never raises.  The
embedding of `collect` is a total function, so the disjunction holds for
every environment. -/
theorem quota_C1_collect_total (env : CollectEnv) :
    collect env = none ∨ ∃ s : SegmentData, collect env = some s := by
  cases h : collect env with
  | none => exact Or.inl rfl
  | some s => exact Or.inr ⟨s, rfl⟩

/-- C2: when a valid cached record exists, its URL is found in the
endpoint list, and the attempt against it succeeds, then that is the only
endpoint contacted in the call (the probe-all loop does not run), the
cache stats are updated in place (success count incremented, timestamp
refreshed, endpoint unchanged), and the cached endpoint's result is
returned. -/
theorem quota_C2_cached_success (d : SmartEndpointDetector)
    (net : String → Option PackyCodeApiResponse) (now : Nat) (k : String)
    (c : EndpointCache) (ep : EndpointConfig) (r : PackyCodeApiResponse)
    (hvalid : is_cache_valid d now k = true)
    (hc : d.cache = some c)
    (hfind : d.endpoints.find? (fun e => e.url == c.successful_endpoint) = some ep)
    (hnet : net ep.url = some r) :
    (detect_endpoint d net now k).result = some (c.successful_endpoint, r)
    ∧ (detect_endpoint d net now k).attempted = [c.successful_endpoint]
    ∧ (detect_endpoint d net now k).cache
        = some { c with last_success_time := now,
                        success_count := (c.success_count + 1) % 2 ^ 32 } := by
  have hurl : ep.url = c.successful_endpoint := by
    have hp := List.find?_some hfind
    simpa using hp
  have hnet2 : net c.successful_endpoint = some r := hurl ▸ hnet
  refine ⟨?_, ?_, ?_⟩ <;>
    simp [detect_endpoint, hvalid, hc, hfind, hnet2, update_cache_stats, hurl]

/-- C3: whenever the try-cached phase does not succeed (record absent,
stale, pointing outside the list, or its attempt failing), the detector
runs the probe-all loop: every configured endpoint is attempted strictly
sequentially in list order until the first success, which terminates the
loop; the result is `none` exactly when every configured endpoint fails
(a sentinel, not an exception); at most the one failed cached attempt
precedes the probe trace; and the fixed list of
`SmartEndpointDetector::new` orders "main" before "share". -/
theorem quota_C3_fallback_probe_order (d : SmartEndpointDetector)
    (net : String → Option PackyCodeApiResponse) (now : Nat) (k : String)
    (h : cachedAttemptSucceeds d net now k = false) :
    (detect_endpoint d net now k).result = probeSpecResult net d.endpoints
    ∧ ((detect_endpoint d net now k).result = none ↔ ∀ e ∈ d.endpoints, net e.url = none)
    ∧ (∃ pre, pre.length ≤ 1 ∧
        (detect_endpoint d net now k).attempted = pre ++ probeSpecTrace net d.endpoints)
    ∧ defaultEndpoints.map (fun e => e.name) = ["main", "share"] := by
  obtain ⟨h1, h2, pre, hlen, h3⟩ := detect_endpoint_fallback d net now k h
  rw [probeAll_result_eq] at h1
  rw [probeAll_attempted_eq] at h3
  exact ⟨h1, by rw [h1]; exact probeSpecResult_eq_none_iff net d.endpoints,
         ⟨pre, hlen, h3⟩, rfl⟩

/-- C4: after every successful detection call the cache record holds the
URL of the endpoint that actually succeeded (an endpoint whose attempt
returned this very response), with a fresh timestamp; on the cached path
only the timestamp and success count change (endpoint field untouched),
while on the fallback path the record is replaced wholesale with the
current credential's fingerprint and a success count of 1. -/
theorem quota_C4_cache_reflects_success (d : SmartEndpointDetector)
    (net : String → Option PackyCodeApiResponse) (now : Nat) (k : String)
    (url : String) (r : PackyCodeApiResponse)
    (h : (detect_endpoint d net now k).result = some (url, r)) :
    ∃ c', (detect_endpoint d net now k).cache = some c'
      ∧ c'.successful_endpoint = url
      ∧ c'.last_success_time = now
      ∧ net url = some r
      ∧ ((∃ c, d.cache = some c ∧ c.successful_endpoint = url
            ∧ c' = { c with last_success_time := now,
                            success_count := (c.success_count + 1) % 2 ^ 32 })
         ∨ c' = update_cache_record k url now) := by
  cases hcs : cachedAttemptSucceeds d net now k with
  | false =>
    obtain ⟨h1, h2, _⟩ := detect_endpoint_fallback d net now k hcs
    have hp : (probeAll net now k d.endpoints d.cache).result = some (url, r) := h1.symm.trans h
    have hcache := probeAll_cache_of_success net now k d.endpoints d.cache url r hp
    have hnet : net url = some r := by
      have hr := probeAll_result_eq net now k d.endpoints d.cache
      exact probeSpecResult_net net d.endpoints url r (hr ▸ hp)
    exact ⟨update_cache_record k url now, by rw [h2, hcache], rfl, rfl, hnet, Or.inr rfl⟩
  | true =>
    cases hv : is_cache_valid d now k with
    | false => simp [cachedAttemptSucceeds, hv] at hcs
    | true =>
      cases hc : d.cache with
      | none => simp [cachedAttemptSucceeds, hv, hc] at hcs
      | some c0 =>
        cases hf : d.endpoints.find? (fun e => e.url == c0.successful_endpoint) with
        | none => simp [cachedAttemptSucceeds, hv, hc, hf] at hcs
        | some ep =>
          cases hn : net ep.url with
          | none => simp [cachedAttemptSucceeds, hv, hc, hf, hn] at hcs
          | some resp =>
            have hurl : ep.url = c0.successful_endpoint := by
              have hp := List.find?_some hf
              simpa using hp
            have hres : (detect_endpoint d net now k).result
                = some (c0.successful_endpoint, resp) := by
              simp [detect_endpoint, hv, hc, hf, hn]
            have heq : some (c0.successful_endpoint, resp)
                = some ((url : String), (r : PackyCodeApiResponse)) := hres.symm.trans h
            simp only [Option.some.injEq, Prod.mk.injEq] at heq
            obtain ⟨hu, hr⟩ := heq
            subst hu; subst hr
            have hcacheq : (detect_endpoint d net now k).cache
                = some { c0 with last_success_time := now,
                                 success_count := (c0.success_count + 1) % 2 ^ 32 } := by
              simp [detect_endpoint, hv, hc, hf, hn, update_cache_stats]
            refine ⟨_, hcacheq, rfl, rfl, ?_, Or.inl ⟨c0, rfl, rfl, rfl⟩⟩
            rw [← hurl]; exact hn

/-- C5: the cache validity test holds exactly when the credential's
fingerprint equals the stored one and the elapsed time since the last
success is strictly under 24 hours (86400 seconds, with a timestamp in
the future counting as invalid); validity is monotone in time — a record
valid at T is invalid at T + 24h + ε for the same credential — and a
fingerprint mismatch invalidates immediately, at any time. -/
theorem quota_C5_validity (d : SmartEndpointDetector) (now : Nat) (k : String) :
    (is_cache_valid d now k = true ↔
      ∃ c, d.cache = some c ∧ hash_api_key k = c.api_key_hash
        ∧ c.last_success_time ≤ now ∧ now - c.last_success_time < 86400)
    ∧ (∀ eps : Nat, is_cache_valid d now k = true →
        is_cache_valid d (now + 86400 + eps) k = false)
    ∧ (∀ c, d.cache = some c → hash_api_key k ≠ c.api_key_hash →
        is_cache_valid d now k = false) := by
  have hiff : is_cache_valid d now k = true ↔
      ∃ c, d.cache = some c ∧ hash_api_key k = c.api_key_hash
        ∧ c.last_success_time ≤ now ∧ now - c.last_success_time < 86400 := by
    cases hc : d.cache with
    | none => simp [is_cache_valid, hc]
    | some c =>
      simp only [is_cache_valid, hc, Option.some.injEq, Bool.and_eq_true, beq_iff_eq,
        decide_eq_true_eq]
      constructor
      · rintro ⟨hh, hage⟩
        by_cases hle : c.last_success_time ≤ now
        · rw [if_pos hle] at hage
          exact ⟨c, rfl, hh, hle, hage⟩
        · rw [if_neg hle] at hage
          exact absurd hage (by norm_num [u64Max])
      · rintro ⟨c', rfl, hh, hle, hlt⟩
        exact ⟨hh, by rw [if_pos hle]; exact hlt⟩
  refine ⟨hiff, ?_, ?_⟩
  · intro eps hv
    obtain ⟨c, hc, hh, hle, hlt⟩ := hiff.mp hv
    have hle2 : c.last_success_time ≤ now + 86400 + eps := by omega
    have hnlt : ¬ (now + 86400 + eps - c.last_success_time < 86400) := by omega
    simp [is_cache_valid, hc, if_pos hle2, hnlt]
  · intro c hc hne
    have hb : (hash_api_key k == c.api_key_hash) = false := by
      simpa using hne
    simp [is_cache_valid, hc, hb]

/-- C6 counterexample: with `PACKYCODE_API_KEY` set to the empty string
and every other source absent, no source yields a usable non-empty
string, yet the resolver returns `some ""` rather than `none` — the
empty-string source is returned, not skipped, refuting the claim that
`resolve` returns `None` iff no source yields a non-empty string. -/
theorem quota_C6_counterexample :
    load_api_key wEnvEmptyVar = some ""
    ∧ load_api_key wEnvEmptyVar ≠ none
    ∧ ∀ v ∈ credentialSources wEnvEmptyVar, ∀ s, v = some s → s = "" := by
  refine ⟨rfl, by simp [load_api_key, wEnvEmptyVar], ?_⟩
  intro v hv s hs
  have hl : credentialSources wEnvEmptyVar = [some "", none, none, none, none] := rfl
  rw [hl] at hv
  simp only [List.mem_cons, List.not_mem_nil, or_false] at hv
  rcases hv with h | h | h | h | h
  all_goals subst h
  all_goals simp_all

/-- C6 amended: the resolver tries the five sources in strict priority
order — tool env var, provider API-key env var, provider auth-token env
var, settings.json nested fields, trimmed key file — stopping at the
first source that is present, and returns `none` iff every source is
absent; a present source is returned as-is even when it holds the empty
string. -/
theorem quota_C6_amended (env : CollectEnv) :
    load_api_key env = firstSome (credentialSources env)
    ∧ (load_api_key env = none ↔ ∀ v ∈ credentialSources env, v = none) := by
  have h1 : load_api_key env = firstSome (credentialSources env) := by
    simp only [load_api_key, credentialSources]
    cases env.envPackycodeApiKey with
    | some s => rfl
    | none =>
    cases env.envAnthropicApiKey with
    | some s => rfl
    | none =>
    cases env.envAnthropicAuthToken with
    | some s => rfl
    | none =>
    cases hs : load_from_settings env with
    | some s => rfl
    | none =>
    cases hh : env.hasHome with
    | false => simp [firstSome]
    | true =>
      cases hf : env.apiKeyFile with
      | some content => simp [firstSome]
      | none => simp [firstSome]
  refine ⟨h1, ?_⟩
  rw [h1]
  generalize credentialSources env = l
  induction l with
  | nil => simp [firstSome]
  | cons v rest ih =>
    cases v with
    | some s => simp [firstSome]
    | none => simpa [firstSome] using ih

/-- C7: the two failure modes of `collect` are distinguishable — when a
credential is resolved but every configured endpoint fails, `collect`
returns the present-but-degraded Offline segment (primary "Offline",
empty secondary, metadata status ↦ offline); when no credential is
found, `collect` returns `none`. -/
theorem quota_C7_offline_vs_none (env : CollectEnv) (k : String) :
    (env.quotaFeature = true → load_api_key env = some k →
      (∀ e ∈ defaultEndpoints, env.net e.url = none) →
      collect env = some ⟨"Offline", "", [("status", "offline")]⟩)
    ∧ (load_api_key env = none → collect env = none) := by
  constructor
  · intro hq hk hall
    have hall2 : ∀ e ∈ (SmartEndpointDetector.new env.cacheFile).endpoints,
        env.net e.url = none := hall
    have hcs := cachedAttemptSucceeds_of_all_fail (SmartEndpointDetector.new env.cacheFile)
      env.net env.now k hall2
    obtain ⟨h1, _, _⟩ := detect_endpoint_fallback (SmartEndpointDetector.new env.cacheFile)
      env.net env.now k hcs
    rw [probeAll_result_eq] at h1
    have hnone : (detect_endpoint (SmartEndpointDetector.new env.cacheFile)
        env.net env.now k).result = none := by
      rw [h1]
      exact (probeSpecResult_eq_none_iff env.net _).mpr hall2
    simp [collect, hq, hk, hnone]
  · intro hk
    cases hq : env.quotaFeature with
    | false => simp [collect, hq]
    | true => simp [collect, hq, hk]

/-- C8: the credential fingerprint is deterministic — it factors through
SipHash-1-3 with the fixed keys (0, 0) applied to the UTF-8 bytes of the
credential (no per-process or per-call state enters the computation, so
equal inputs give equal outputs across calls and process restarts), and
the output is a 64-bit value. -/
theorem quota_C8_fingerprint_deterministic (s : String) :
    hash_api_key s = sipHash13 0 0 (strBytes s ++ [0xff])
    ∧ hash_api_key s < 2 ^ 64 := by
  refine ⟨rfl, ?_⟩
  show sipHash13 0 0 (strBytes s ++ [0xff]) < 2 ^ 64
  unfold sipHash13
  exact Nat.mod_lt _ (by norm_num [wordMod])

/-- Digit characters of digits below ten are recognised as digits. -/
theorem digitChar_isDigit (m : Nat) (h : m < 10) : (Nat.digitChar m).isDigit = true := by
  interval_cases m <;> decide

/-- A string whose character data ends in a dot and two digit characters
passes the two-decimal-places shape test. -/
theorem hasTwoDecimals_of_data (s : String) (l : List Char) (d1 d2 : Nat)
    (h1 : d1 < 10) (h2 : d2 < 10)
    (hdata : s.data = l ++ ['.', Nat.digitChar d1, Nat.digitChar d2]) :
    hasTwoDecimals s = true := by
  unfold hasTwoDecimals
  rw [hdata]
  simp [List.reverse_append, digitChar_isDigit d1 h1, digitChar_isDigit d2 h2]

/-- Any finite rendering, behind any prefix string, has exactly two
decimal places. -/
theorem hasTwoDecimals_fmtFinite (p : String) (neg : Bool) (mag : Rat) :
    hasTwoDecimals (p ++ fmtFinite neg mag) = true := by
  have hlt : roundHalfEvenNat (ratMul100 mag) % 100 < 100 := Nat.mod_lt _ (by norm_num)
  refine hasTwoDecimals_of_data _
    (p.data ++ ((if neg then "-" else "")
      ++ toString (roundHalfEvenNat (ratMul100 mag) / 100)).data)
    (roundHalfEvenNat (ratMul100 mag) % 100 / 10)
    (roundHalfEvenNat (ratMul100 mag) % 100 % 10)
    ?_ (Nat.mod_lt _ (by norm_num)) ?_
  · omega
  · simp [fmtFinite, twoFracString, String.data_append]

/-- C9 counterexample: the string "inf" parses as a floating-point
number, and the formatter renders it as "$inf", which has no decimal
places at all — refuting the claim that every successfully parsed spend
string is rendered with exactly two decimal places. -/
theorem quota_C9_counterexample :
    rustParseFloat "inf" = some (FloatVal.inf false)
    ∧ format_daily_spent "inf" = "$inf"
    ∧ hasTwoDecimals (format_daily_spent "inf") = false :=
  ⟨rfl, rfl, rfl⟩

/-- C9 amended: for every spend string, if it parses as a finite
floating-point value it is rendered with exactly two decimal places
prefixed by the dollar sign; if it parses as an infinity or NaN it is
rendered as that special value's fixed name prefixed by the dollar sign;
if parsing fails the raw string is rendered prefixed by the dollar sign;
the formatting function itself is total and never fails. -/
theorem quota_C9_amended (s : String) :
    (∀ neg mag, rustParseFloat s = some (.finite neg mag) →
        format_daily_spent s = "$" ++ fmtFinite neg mag
        ∧ hasTwoDecimals (format_daily_spent s) = true)
    ∧ (∀ v, rustParseFloat s = some v → format_daily_spent s = "$" ++ fmtFloat v)
    ∧ (rustParseFloat s = none → format_daily_spent s = "$" ++ s) := by
  refine ⟨?_, ?_, ?_⟩
  · intro neg mag hp
    have h1 : format_daily_spent s = "$" ++ fmtFinite neg mag := by
      simp [format_daily_spent, hp, fmtFloat]
    exact ⟨h1, by rw [h1]; exact hasTwoDecimals_fmtFinite "$" neg mag⟩
  · intro v hp
    simp [format_daily_spent, hp]
  · intro hp
    simp [format_daily_spent, hp]

/-- C10: when the cache record is valid but its URL matches no entry of
the configured endpoint list, the cached endpoint is never contacted, no
in-place stats update happens (the cache is either untouched, or — on a
probe success — replaced wholesale), and detection proceeds directly to
the probe-all phase over the configured list. -/
theorem quota_C10_unknown_cached_url (d : SmartEndpointDetector)
    (net : String → Option PackyCodeApiResponse) (now : Nat) (k : String)
    (c : EndpointCache)
    (hvalid : is_cache_valid d now k = true)
    (hc : d.cache = some c)
    (hnotin : ∀ e ∈ d.endpoints, e.url ≠ c.successful_endpoint) :
    (detect_endpoint d net now k).attempted = probeSpecTrace net d.endpoints
    ∧ c.successful_endpoint ∉ (detect_endpoint d net now k).attempted
    ∧ (detect_endpoint d net now k).result = probeSpecResult net d.endpoints
    ∧ ((detect_endpoint d net now k).cache = d.cache
       ∨ ∃ url r, (detect_endpoint d net now k).result = some (url, r)
           ∧ (detect_endpoint d net now k).cache = some (update_cache_record k url now)) := by
  have hfind : d.endpoints.find? (fun e => e.url == c.successful_endpoint) = none := by
    rw [List.find?_eq_none]
    intro e he
    simpa using hnotin e he
  have hdet : detect_endpoint d net now k = probeAll net now k d.endpoints (some c) := by
    simp [detect_endpoint, hvalid, hc, hfind]
  rw [hdet, hc]
  refine ⟨probeAll_attempted_eq net now k d.endpoints (some c), ?_,
    probeAll_result_eq net now k d.endpoints (some c), ?_⟩
  · rw [probeAll_attempted_eq]
    intro hmem
    obtain ⟨e, he, hu⟩ := probeSpecTrace_mem net d.endpoints _ hmem
    exact hnotin e he hu
  · cases hres : (probeAll net now k d.endpoints (some c)).result with
    | none => exact Or.inl (probeAll_cache_of_none net now k d.endpoints (some c) hres)
    | some pr =>
      obtain ⟨url, r⟩ := pr
      exact Or.inr ⟨url, r, rfl,
        probeAll_cache_of_success net now k d.endpoints (some c) url r hres⟩

/-! ## Witnesses: the claim theorems applied at concrete inputs -/

set_option maxRecDepth 40000

/-- C2 witness: a fresh valid cache on the main endpoint with a
responsive main endpoint — only the cached endpoint is contacted and the
stats are bumped in place. -/
theorem quota_C2_witness :
    (detect_endpoint wDetector wNetMain 200 "k").result
      = some (wCache.successful_endpoint, wResp)
    ∧ (detect_endpoint wDetector wNetMain 200 "k").attempted = [wCache.successful_endpoint]
    ∧ (detect_endpoint wDetector wNetMain 200 "k").cache
        = some { wCache with last_success_time := 200,
                             success_count := (wCache.success_count + 1) % 2 ^ 32 } :=
  quota_C2_cached_success wDetector wNetMain 200 "k" wCache ⟨wURL, "main"⟩ wResp
    (by decide) rfl (by decide) (by decide)

/-- C3 witness: a valid cache whose endpoint fails (the network refuses
everything) — detection falls back to the full ordered probe. -/
theorem quota_C3_witness :
    (detect_endpoint wDetector wNetNone 200 "k").result
      = probeSpecResult wNetNone wDetector.endpoints
    ∧ ((detect_endpoint wDetector wNetNone 200 "k").result = none ↔
        ∀ e ∈ wDetector.endpoints, wNetNone e.url = none)
    ∧ (∃ pre, pre.length ≤ 1 ∧
        (detect_endpoint wDetector wNetNone 200 "k").attempted
          = pre ++ probeSpecTrace wNetNone wDetector.endpoints)
    ∧ defaultEndpoints.map (fun e => e.name) = ["main", "share"] :=
  quota_C3_fallback_probe_order wDetector wNetNone 200 "k" (by decide)

/-- C4 witness: a successful detection against the main endpoint leaves
the cache pointing at the URL that succeeded. -/
theorem quota_C4_witness :
    ∃ c', (detect_endpoint wDetector wNetMain 200 "k").cache = some c'
      ∧ c'.successful_endpoint = wURL
      ∧ c'.last_success_time = 200
      ∧ wNetMain wURL = some wResp
      ∧ ((∃ c, wDetector.cache = some c ∧ c.successful_endpoint = wURL
            ∧ c' = { c with last_success_time := 200,
                            success_count := (c.success_count + 1) % 2 ^ 32 })
         ∨ c' = update_cache_record "k" wURL 200) :=
  quota_C4_cache_reflects_success wDetector wNetMain 200 "k" wURL wResp (by decide)

/-- C5 witness: the fixture cache is valid at time 200 for the key it
fingerprints, invalid one second past the 24-hour horizon, and invalid
immediately for a different key. -/
theorem quota_C5_witness :
    is_cache_valid wDetector 200 "k" = true
    ∧ is_cache_valid wDetector (200 + 86400 + 1) "k" = false
    ∧ is_cache_valid wDetector 200 "j" = false := by
  have h1 := (quota_C5_validity wDetector 200 "k").1.mpr
    ⟨wCache, rfl, rfl, by decide, by decide⟩
  exact ⟨h1, (quota_C5_validity wDetector 200 "k").2.1 1 h1,
    (quota_C5_validity wDetector 200 "j").2.2 wCache rfl (by decide)⟩

/-- C6 witness: the amended resolver contract evaluated on the two
concrete environments. -/
theorem quota_C6_witness :
    load_api_key wEnvCred = firstSome (credentialSources wEnvCred)
    ∧ (load_api_key wEnvNoCred = none ↔ ∀ v ∈ credentialSources wEnvNoCred, v = none) :=
  ⟨(quota_C6_amended wEnvCred).1, (quota_C6_amended wEnvNoCred).2⟩

/-- C7 witness: with a credential in the environment and every endpoint
down, collect yields the Offline segment; with no credential at all it
yields `none`. -/
theorem quota_C7_witness :
    collect wEnvCred = some ⟨"Offline", "", [("status", "offline")]⟩
    ∧ collect wEnvNoCred = none := by
  refine ⟨(quota_C7_offline_vs_none wEnvCred "k").1 rfl rfl ?_,
    (quota_C7_offline_vs_none wEnvNoCred "k").2 rfl⟩
  intro e _
  rfl

/-- C8 witness: the fingerprint contract at the concrete credential. -/
theorem quota_C8_witness :
    hash_api_key "k" = sipHash13 0 0 (strBytes "k" ++ [0xff])
    ∧ hash_api_key "k" < 2 ^ 64 :=
  quota_C8_fingerprint_deterministic "k"

/-- C9 witness: the two spec examples — a parsed spend renders with two
decimals, a non-numeric spend falls back to the raw string. -/
theorem quota_C9_witness :
    format_daily_spent "12.5" = "$12.50"
    ∧ hasTwoDecimals (format_daily_spent "12.5") = true
    ∧ format_daily_spent "n/a" = "$n/a" := by
  have h := (quota_C9_amended "12.5").1 false (mkRat 25 2) (by decide)
  have h2 := (quota_C9_amended "n/a").2.2 (by decide)
  exact ⟨h.1.trans (by decide), h.2, h2.trans (by decide)⟩

/-- C10 witness: a valid cache pointing at a URL outside the endpoint
list — the alien URL is never contacted and probing covers the list. -/
theorem quota_C10_witness :
    (detect_endpoint wDetectorAlien wNetMain 200 "k").attempted
      = probeSpecTrace wNetMain wDetectorAlien.endpoints
    ∧ wCacheAlien.successful_endpoint ∉ (detect_endpoint wDetectorAlien wNetMain 200 "k").attempted
    ∧ (detect_endpoint wDetectorAlien wNetMain 200 "k").result
        = probeSpecResult wNetMain wDetectorAlien.endpoints
    ∧ ((detect_endpoint wDetectorAlien wNetMain 200 "k").cache = wDetectorAlien.cache
       ∨ ∃ url r, (detect_endpoint wDetectorAlien wNetMain 200 "k").result = some (url, r)
           ∧ (detect_endpoint wDetectorAlien wNetMain 200 "k").cache
               = some (update_cache_record "k" url 200)) :=
  quota_C10_unknown_cached_url wDetectorAlien wNetMain 200 "k" wCacheAlien
    (by decide) rfl (by decide)
